import Mathlib

/-!
Verification development for the pubsub repository: a shallow embedding of
the message-history engine (`src/pub/src/history.rs`), the per-topic
publisher process (`src/processes/pub/src/lib.rs`) and the per-subscription
subscriber process (`src/processes/sub/src/lib.rs`), together with theorems
about the properties the specification states about them.

Modelling conventions:
- byte strings are `List Nat`, addresses are `Nat`, topics are `String`;
- Rust `u64` counters are `Nat` (Rust `+= 1` on `u64` only diverges from
  `Nat` after `2^64` operations, which no stated property reaches);
- the durable key/value capability (`kinode_process_lib::kv`) is an
  external collaborator that is not part of this repository; it is
  modelled as an association list plus explicit fault-injection sets so
  that store failures are expressible.  Per the interface description a
  `delete` of an absent key is a successful no-op;
- `serde_json::from_slice::<Message>` is modelled as a partial decoder
  `decodeMessage` that inverts an injective encoding `encodeMessage` and
  fails on byte strings that are not encodings — exactly the property of
  JSON deserialization the code relies on (arbitrary payload bytes are in
  general not a serialized `Message`);
- a Rust function returning `anyhow::Result` is modelled with `Except Unit`
  (pure reads) or with a `(state, Bool)` pair (mutating operations, so that
  the partial state mutation performed before an early `?` return is kept,
  as it is in the Rust code);
- outbound `Request::send`/`Response::send` calls are collected into an
  explicit event list, in program order.
-/

namespace PubSub

abbrev Bytes := List Nat

abbrev Address := Nat

/-- `Message` from `src/pub/src/history.rs`. -/
structure Message where
  sequence : Nat
  content : Bytes
deriving DecidableEq, Repr

/-- Injective byte encoding of a `Message`; stands for `serde_json::to_vec`. -/
def encodeMessage (m : Message) : Bytes :=
  m.sequence :: m.content.length :: m.content

/-- Partial decoder; stands for `serde_json::from_slice::<Message>`.  It
inverts `encodeMessage` and fails on any byte string that is not an
encoding (in particular on most raw payload byte strings). -/
def decodeMessage : Bytes → Except Unit Message
  | s :: n :: rest => if rest.length = n then .ok ⟨s, rest⟩ else .error ()
  | _ => .error ()

/-- Model of the durable key/value capability (`kinode_process_lib::kv`),
an external collaborator of this repository.  `data` is the stored
association; the three fault sets inject store failures on the
corresponding operation, so that error-handling behaviour is expressible. -/
structure KvStore where
  data : List (Nat × Bytes)
  getFail : List Nat
  setFail : List Nat
  deleteFail : List Nat
deriving DecidableEq, Repr

/-- First binding of `k` in an association list. -/
def lookupKey (k : Nat) : List (Nat × Bytes) → Option Bytes
  | [] => .none
  | (k2, v) :: rest => if k2 = k then some v else lookupKey k rest

/-- `kv.get(&key)`: fails on an injected fault or an absent key. -/
def kvGet (kv : KvStore) (k : Nat) : Except Unit Bytes :=
  if k ∈ kv.getFail then .error ()
  else
    match lookupKey k kv.data with
    | some v => .ok v
    | .none => .error ()

/-- `kv.set(&key, &value, None)`: fails only on an injected fault. -/
def kvSet (kv : KvStore) (k : Nat) (v : Bytes) : Except Unit KvStore :=
  if k ∈ kv.setFail then .error ()
  else .ok { kv with data := (k, v) :: kv.data.filter (fun p => p.1 != k) }

/-- `kv.delete(&key, None)`: fails only on an injected fault.
Modelled from the spec: the durable-store capability itself is not part of
this repository; per the spec a delete of an already-absent key is
tolerated (a successful no-op), not an error. -/
def kvDelete (kv : KvStore) (k : Nat) : Except Unit KvStore :=
  if k ∈ kv.deleteFail then .error ()
  else .ok { kv with data := kv.data.filter (fun p => p.1 != k) }

/-- `Persistence` from the wit interface (`None | Memory(n) | Disk(n)`). -/
inductive Persistence
  | none
  | memory (maxLength : Nat)
  | disk (maxLength : Nat)
deriving DecidableEq, Repr

/-- `StorageEntry` from `src/pub/src/history.rs`. -/
inductive StorageEntry
  | full (m : Message)
  | sequenceOnly (s : Nat)
deriving DecidableEq, Repr

/-- `MessageHistory` from `src/pub/src/history.rs`.  The `VecDeque` is a
list whose head is the front; the `our` address only feeds the kv
namespace and is dropped. -/
structure MessageHistory where
  entries : List StorageEntry
  persistence : Persistence
  kv : KvStore
deriving DecidableEq, Repr

/-- `MessageHistory::new`: empty entry list over the opened kv handle. -/
def MessageHistory.new (kv : KvStore) (persistence : Persistence) : MessageHistory :=
  { entries := [], persistence := persistence, kv := kv }

/-- `MessageHistory::add_message`.  Returns the (possibly partially
mutated) history and `true` for `Ok(())`, `false` for an early `Err`
return from one of the `?` operators; as in the Rust code, mutations made
before a failing kv call are kept. -/
def MessageHistory.add_message (h : MessageHistory) (sequence : Nat) (content : Bytes) :
    MessageHistory × Bool :=
  match h.persistence with
  | .none => (h, true)
  | .memory maxSize =>
      let entries := if maxSize ≤ h.entries.length then h.entries.tail else h.entries
      ({ h with entries := entries ++ [.full ⟨sequence, content⟩] }, true)
  | .disk maxSize =>
      let step1 : MessageHistory × Bool :=
        if maxSize ≤ h.entries.length then
          match h.entries with
          | .sequenceOnly oldest :: rest =>
              match kvDelete h.kv oldest with
              | .ok kv2 => ({ h with entries := rest, kv := kv2 }, true)
              | .error _ => ({ h with entries := rest }, false)
          | _ :: rest => ({ h with entries := rest }, true)
          | [] => (h, true)
        else (h, true)
      if step1.2 then
        match kvSet step1.1.kv sequence content with
        | .ok kv2 =>
            ({ step1.1 with
                kv := kv2,
                entries := step1.1.entries ++ [.sequenceOnly sequence] }, true)
        | .error _ => (step1.1, false)
      else step1

/-- The Disk branch loop of `MessageHistory::get_messages_from`: a failed
`kv.get` is silently skipped (`if let Ok`), a failed deserialization
propagates (`?`) and aborts the whole read. -/
def diskReadFrom (kv : KvStore) (start : Nat) : List StorageEntry → Except Unit (List Message)
  | [] => .ok []
  | .full _ :: rest => diskReadFrom kv start rest
  | .sequenceOnly s :: rest =>
      if start ≤ s then
        match kvGet kv s with
        | .ok bytes =>
            match decodeMessage bytes with
            | .ok m =>
                match diskReadFrom kv start rest with
                | .ok tl => .ok (m :: tl)
                | .error e => .error e
            | .error e => .error e
        | .error _ => diskReadFrom kv start rest
      else diskReadFrom kv start rest

/-- `MessageHistory::get_messages_from`. -/
def MessageHistory.get_messages_from (h : MessageHistory) (start_sequence : Nat) :
    Except Unit (List Message) :=
  match h.persistence with
  | .none => .ok []
  | .memory _ =>
      .ok (h.entries.filterMap fun e =>
        match e with
        | .full msg => if start_sequence ≤ msg.sequence then some msg else .none
        | .sequenceOnly _ => .none)
  | .disk _ => diskReadFrom h.kv start_sequence h.entries

/-- `MessageHistory::get_latest_sequence`. -/
def MessageHistory.get_latest_sequence (h : MessageHistory) : Option Nat :=
  h.entries.getLast?.map fun e =>
    match e with
    | .full msg => msg.sequence
    | .sequenceOnly s => s

/-- `MessageHistory::len`. -/
def MessageHistory.len (h : MessageHistory) : Nat :=
  h.entries.length

/-- The full messages a history retains (for the Memory tier every
retained entry is full). -/
def retainedMessages (h : MessageHistory) : List Message :=
  h.entries.filterMap fun e =>
    match e with
    | .full m => some m
    | .sequenceOnly _ => Option.none

/-! ## Publisher process (`src/processes/pub/src/lib.rs`) -/

/-- `PubConfig` from the wit interface (intervals are opaque numbers). -/
structure PubConfig where
  max_retry_attempts : Nat
  retry_interval : Nat
  heartbeat_interval : Nat
  default_persistence : Persistence
deriving DecidableEq, Repr

/-- `PublisherState` from `src/processes/pub/src/lib.rs`.  The
`HashSet<Address>` of subscribers is a duplicate-free list (iteration
order of a hash set is unspecified, and no theorem depends on it). -/
structure PublisherState where
  topic : String
  last_sequence : Nat
  subscribers : List Address
  offline_subscribers : List (Address × Nat)
  config : PubConfig
  parent : Address
  message_history : MessageHistory
deriving DecidableEq, Repr

/-- `PublisherState::new` (the kv handle opened by `MessageHistory::new`
is passed in, the store being an external capability). -/
def PublisherState.new (config : PubConfig) (parent : Address) (topic : String)
    (kv : KvStore) : PublisherState :=
  { topic := topic
    last_sequence := 0
    subscribers := []
    offline_subscribers := []
    config := config
    parent := parent
    message_history := MessageHistory.new kv config.default_persistence }

/-- `SubscribeRequest` from the wit interface. -/
structure SubscribeRequest where
  topic : String
  from_sequence : Option Nat
deriving DecidableEq, Repr

/-- `PublishRequest` from the wit interface. -/
structure PublishRequest where
  topic : String
  sequence : Nat
deriving DecidableEq, Repr

/-- `PubRequest` variants handled by `handle_request` in
`src/processes/pub/src/lib.rs`. -/
inductive PubRequest
  | subscribe (req : SubscribeRequest)
  | unsubscribe (topic : String)
  | publish (req : PublishRequest)
  | kill
deriving DecidableEq, Repr

/-- `SubscribeResponse` from the wit interface (also used to answer
Unsubscribe in this revision). -/
structure SubscribeResponse where
  success : Bool
  topic : String
  error : Option String
deriving DecidableEq, Repr

/-- Outbound traffic of the publisher handler, in program order:
`Response::new()...send()` and `Request::to(addr)...blob_bytes(b).send()`. -/
inductive PubEvent
  | response (res : SubscribeResponse)
  | send (dest : Address) (req : PublishRequest) (blob : Bytes)
deriving DecidableEq, Repr

/-- `HashSet::insert`: adds the address unless already present. -/
def insertAddr (a : Address) (l : List Address) : List Address :=
  if a ∈ l then l else l ++ [a]

/-- The error string built by `format!` for a topic mismatch. -/
def topicMismatchError (requested has : String) : String :=
  "error: publisher does not have requested topic: " ++ requested ++ ", has: " ++ has

/-- `handle_request` from `src/processes/pub/src/lib.rs`.  Result: the new
state, the outbound events in program order, and `true` for `Ok(())` /
`false` for an `Err` propagated by a `?` operator.  `blob` models
`get_blob()`; `save_capabilities` stores an opaque token and touches no
modelled state.  `Kill` terminates the process (modelled as a no-op here;
no claim concerns it). -/
def pubHandleRequest (req : PubRequest) (source : Address) (blob : Option Bytes)
    (state : PublisherState) : PublisherState × List PubEvent × Bool :=
  match req with
  | .subscribe subReq =>
      if state.topic = subReq.topic then
        let state1 := { state with subscribers := insertAddr source state.subscribers }
        let resEvt := PubEvent.response ⟨true, subReq.topic, Option.none⟩
        match subReq.from_sequence with
        | some fs =>
            match state1.message_history.get_messages_from fs with
            | .ok messages =>
                (state1,
                 resEvt :: messages.map (fun m =>
                   PubEvent.send source ⟨state1.topic, m.sequence⟩ m.content),
                 true)
            | .error _ => (state1, [resEvt], false)
        | Option.none => (state1, [resEvt], true)
      else
        (state,
         [PubEvent.response ⟨false, subReq.topic,
            some (topicMismatchError subReq.topic state.topic)⟩],
         true)
  | .unsubscribe topic =>
      if state.topic = topic then
        ({ state with subscribers := state.subscribers.filter (fun a => a != source) },
         [PubEvent.response ⟨true, topic, Option.none⟩], true)
      else
        (state,
         [PubEvent.response ⟨false, topic,
            some (topicMismatchError topic state.topic)⟩],
         true)
  | .publish pubMsg =>
      if source = state.parent then
        let new_seq := state.last_sequence + 1
        let bytes := blob.getD []
        let state1 := { state with last_sequence := new_seq }
        let res := state1.message_history.add_message new_seq bytes
        let state2 := { state1 with message_history := res.1 }
        if res.2 then
          (state2,
           state2.subscribers.map (fun sub =>
             PubEvent.send sub ⟨pubMsg.topic, new_seq⟩ bytes),
           true)
        else (state2, [], false)
      else (state, [], true)
  | .kill => (state, [], true)

/-- Feeds a list of `(source, topic, blob)` Publish requests through
`pubHandleRequest` and collects, for each accepted one (source equals the
parent), the sequence number the handler assigned to it (read off the
updated counter, exactly the `new_seq` the code fans out and stores). -/
def runPublishes (state : PublisherState) :
    List (Address × String × Option Bytes) → PublisherState × List Nat
  | [] => (state, [])
  | (src, topic, blob) :: rest =>
      let next := (pubHandleRequest (.publish ⟨topic, 0⟩) src blob state).1
      let tailRes := runPublishes next rest
      if src = state.parent then
        (tailRes.1, next.last_sequence :: tailRes.2)
      else
        (tailRes.1, tailRes.2)

/-! ## Subscriber process (`src/processes/sub/src/lib.rs`) -/

/-- `Subscription` from `src/processes/sub/src/lib.rs`. -/
structure Subscription where
  publisher : Address
  topic : String
  last_received_seq : Nat
  parent : Address
  forward_to : List Address
deriving DecidableEq, Repr

/-- `SubscriberState` from `src/processes/sub/src/lib.rs`. -/
structure SubscriberState where
  subscription : Subscription
deriving DecidableEq, Repr

/-- `SubRequest` variants handled by the subscriber's `handle_request`. -/
inductive SubRequest
  | subscribe (req : SubscribeRequest)
  | unsubscribe (topic : String)
  | publish (req : PublishRequest)
deriving DecidableEq, Repr

/-- Outbound traffic of the subscriber handler: `Request::to(addr)` with
the forwarded body; `.inherit(true)` passes the payload blob through
unchanged, so forwarding the same `req` value models pass-through. -/
inductive SubEvent
  | send (dest : Address) (req : SubRequest)
deriving DecidableEq, Repr

/-- `handle_request` from `src/processes/sub/src/lib.rs`.  Result: new
state, outbound events in program order, and `true` when the handler
terminates the process (the Unsubscribe arm exits after forwarding). -/
def subHandleRequest (req : SubRequest) (source : Address) (state : SubscriberState) :
    SubscriberState × List SubEvent × Bool :=
  match req with
  | .unsubscribe _ =>
      if source = state.subscription.parent then
        (state, [SubEvent.send state.subscription.publisher req], true)
      else (state, [], false)
  | .publish pubMsg =>
      if state.subscription.topic = pubMsg.topic then
        let state2 := { state with subscription :=
          { state.subscription with last_received_seq := pubMsg.sequence } }
        (state2,
         SubEvent.send state2.subscription.parent req ::
           state2.subscription.forward_to.map (fun f => SubEvent.send f req),
         false)
      else (state, [], false)
  | .subscribe _ =>
      if source = state.subscription.parent then
        (state, [SubEvent.send state.subscription.publisher req], false)
      else (state, [], false)

/-! ## Concrete instances used by witnesses and counterexamples -/

/-- A kv handle with no stored data and no injected faults. -/
def cleanKv : KvStore := ⟨[], [], [], []⟩

/-- The default publisher configuration of the repository. -/
def witnessConfig : PubConfig := ⟨3, 120, 60, .memory 1000⟩

/-- A freshly initialized publisher for topic `"t"` with parent `0`. -/
def pubState0 : PublisherState := PublisherState.new witnessConfig 0 "t" cleanKv

/-- Number of requests in a batch whose source is the parent (the ones the
Publish handler accepts). -/
def acceptedCount (parent : Address) (reqs : List (Address × String × Option Bytes)) : Nat :=
  (reqs.filter fun r => r.1 == parent).length

/-! ## Theorems -/

theorem publish_step_shape (pubMsg : PublishRequest) (source : Address) (blob : Option Bytes)
    (state : PublisherState) :
    ((pubHandleRequest (.publish pubMsg) source blob state).1).parent = state.parent ∧
    ((pubHandleRequest (.publish pubMsg) source blob state).1).last_sequence =
      (if source = state.parent then state.last_sequence + 1 else state.last_sequence) := by
  by_cases h : source = state.parent
  · simp only [pubHandleRequest, if_pos h]
    constructor
    · split <;> rfl
    · split <;> rfl
  · simp [pubHandleRequest, if_neg h]

theorem runPublishes_spec (reqs : List (Address × String × Option Bytes)) :
    ∀ state : PublisherState,
      (runPublishes state reqs).2 =
        List.range' (state.last_sequence + 1) (acceptedCount state.parent reqs) ∧
      ((runPublishes state reqs).1).last_sequence =
        state.last_sequence + acceptedCount state.parent reqs ∧
      ((runPublishes state reqs).1).parent = state.parent := by
  induction reqs with
  | nil =>
      intro state
      simp [runPublishes, acceptedCount]
  | cons r rest ih =>
      intro state
      obtain ⟨src, topic, blob⟩ := r
      have hstep := publish_step_shape ⟨topic, 0⟩ src blob state
      by_cases hsrc : src = state.parent
      · have hnext := ih (pubHandleRequest (.publish ⟨topic, 0⟩) src blob state).1
        simp only [runPublishes, if_pos hsrc]
        rw [hstep.1, hstep.2] at hnext
        rw [if_pos hsrc] at hnext
        refine ⟨?_, ?_, hnext.2.2⟩
        · rw [hnext.1, hstep.2, if_pos hsrc]
          have hcount : acceptedCount state.parent ((src, topic, blob) :: rest) =
              acceptedCount state.parent rest + 1 := by
            simp [acceptedCount, hsrc]
          rw [hcount, List.range'_succ]
        · rw [hnext.2.1]
          have hcount : acceptedCount state.parent ((src, topic, blob) :: rest) =
              acceptedCount state.parent rest + 1 := by
            simp [acceptedCount, hsrc]
          rw [hcount]
          omega
      · have hnoop : pubHandleRequest (.publish ⟨topic, 0⟩) src blob state =
            (state, [], true) := by
          simp only [pubHandleRequest]
          rw [if_neg hsrc]
        have hcount : acceptedCount state.parent ((src, topic, blob) :: rest) =
            acceptedCount state.parent rest := by
          simp [acceptedCount, hsrc]
        simp only [runPublishes, if_neg hsrc, hnoop, hcount]
        exact ih state

/-- C1: starting from a fresh publisher (sequence counter 0), a batch of
Publish requests leads to the accepted ones (exactly those whose source is
the parent) being assigned the sequence numbers `1, 2, ..., N` in order —
`List.range' 1 N` — with the counter incremented by exactly 1 per accepted
publish, ending at `N`. -/
theorem C1_accepted_publish_sequences (state : PublisherState)
    (reqs : List (Address × String × Option Bytes)) (h0 : state.last_sequence = 0) :
    (runPublishes state reqs).2 = List.range' 1 (acceptedCount state.parent reqs) ∧
    ((runPublishes state reqs).1).last_sequence = acceptedCount state.parent reqs := by
  have h := runPublishes_spec reqs state
  rw [h0] at h
  exact ⟨h.1, by rw [h.2.1]; omega⟩

/-- Witness for C1 at a concrete batch: publishes from parent 0,
stranger 7, parent 0 again; the two accepted ones get sequences [1, 2]. -/
theorem C1_witness :
    pubState0.last_sequence = 0 ∧
    (runPublishes pubState0
        [(0, "a", Option.none), (7, "b", Option.none), (0, "c", some [9])]).2 = [1, 2] := by
  refine ⟨rfl, ?_⟩
  have h := (C1_accepted_publish_sequences pubState0
    [(0, "a", Option.none), (7, "b", Option.none), (0, "c", some [9])] rfl).1
  rw [h]
  decide

/-- C7: a Publish request whose source is not the parent is a silent
no-op: no response, no fan-out, no history append, publisher state
(counter, subscriber set, history, everything) unchanged. -/
theorem C7_nonparent_publish_silent_noop (state : PublisherState) (source : Address)
    (pubMsg : PublishRequest) (blob : Option Bytes) (h : source ≠ state.parent) :
    pubHandleRequest (.publish pubMsg) source blob state = (state, [], true) := by
  simp only [pubHandleRequest]
  rw [if_neg h]

/-- Witness for C7: source 1 is not the parent (0) of `pubState0`; its
publish leaves the state untouched and emits nothing. -/
theorem C7_witness :
    (1 : Address) ≠ pubState0.parent ∧
    pubHandleRequest (.publish ⟨"t", 5⟩) 1 Option.none pubState0 = (pubState0, [], true) :=
  ⟨by decide, C7_nonparent_publish_silent_noop pubState0 1 ⟨"t", 5⟩ Option.none (by decide)⟩

/-- C8: a Subscribe request for a topic the publisher does not serve is
answered with `success = false` and a non-empty descriptive error, and the
publisher state is completely unchanged (in particular the requester is
not added to the subscriber set and no replay is sent). -/
theorem C8_subscribe_mismatch (state : PublisherState) (source : Address)
    (blob : Option Bytes) (subTopic : String) (fs : Option Nat)
    (h : state.topic ≠ subTopic) :
    pubHandleRequest (.subscribe ⟨subTopic, fs⟩) source blob state =
      (state,
       [PubEvent.response ⟨false, subTopic, some (topicMismatchError subTopic state.topic)⟩],
       true) ∧
    0 < (topicMismatchError subTopic state.topic).length := by
  constructor
  · simp only [pubHandleRequest]
    rw [if_neg h]
  · unfold topicMismatchError
    rw [String.length_append, String.length_append, String.length_append]
    have hlit : 0 < ("error: publisher does not have requested topic: " : String).length := by
      decide
    omega

/-- Witness for C8: `pubState0` serves `"t"`; subscribing to `"u"` fails
with the concrete error string, and the state is untouched. -/
theorem C8_witness :
    pubState0.topic ≠ "u" ∧
    pubHandleRequest (.subscribe ⟨"u", some 1⟩) 4 Option.none pubState0 =
      (pubState0,
       [PubEvent.response ⟨false, "u", some (topicMismatchError "u" pubState0.topic)⟩],
       true) :=
  ⟨by decide, (C8_subscribe_mismatch pubState0 4 Option.none "u" (some 1) (by decide)).1⟩

/-- C10: for every Subscribe request the synchronous response is the first
emitted event; replay Publish sends can only follow it when the response
reported success and a `from_sequence` was supplied; a failed subscribe
emits no replay sends at all; and everything after the response is a
Publish send. -/
theorem C10_response_precedes_replay (state : PublisherState) (source : Address)
    (blob : Option Bytes) (subReq : SubscribeRequest) :
    ∃ success err rest,
      (pubHandleRequest (.subscribe subReq) source blob state).2.1 =
        PubEvent.response ⟨success, subReq.topic, err⟩ :: rest ∧
      (rest ≠ [] → success = true ∧ subReq.from_sequence.isSome = true) ∧
      (success = false → rest = []) ∧
      (∀ ev ∈ rest, ∃ dest pr bl, ev = PubEvent.send dest pr bl) := by
  simp only [pubHandleRequest]
  by_cases ht : state.topic = subReq.topic
  · rw [if_pos ht]
    cases hfs : subReq.from_sequence with
    | none =>
        refine ⟨true, Option.none, [], ?_, ?_, ?_, ?_⟩ <;> simp
    | some fs =>
        cases hg : ({ state with subscribers := insertAddr source state.subscribers
                    } : PublisherState).message_history.get_messages_from fs with
        | ok messages =>
            refine ⟨true, Option.none,
              messages.map (fun m => PubEvent.send source ⟨state.topic, m.sequence⟩ m.content),
              ?_, ?_, ?_, ?_⟩
            · simp only [hg]
            · intro _
              simp [hfs]
            · simp
            · intro ev hev
              obtain ⟨m, _, rfl⟩ := List.mem_map.mp hev
              exact ⟨source, ⟨state.topic, m.sequence⟩, m.content, rfl⟩
        | error e =>
            refine ⟨true, Option.none, [], ?_, ?_, ?_, ?_⟩ <;> simp [hg]
  · rw [if_neg ht]
    refine ⟨false, some (topicMismatchError subReq.topic state.topic), [], ?_, ?_, ?_, ?_⟩ <;>
      simp

/-- C2 counterexample: the subscriber for topic `"t"` has
`last_received_seq = 5`; an incoming matching Publish with sequence 3 sets
it to 3, strictly below the previous 5 — the code assigns the incoming
sequence directly instead of taking the max the claim states. -/
def subStateC2 : SubscriberState := ⟨⟨1, "t", 5, 0, []⟩⟩

/-- C2 is false as stated: handling Publish(topic `"t"`, seq 3) decreases
`last_received_seq` from 5 to 3 (the claimed max would have kept 5). -/
theorem C2_counterexample :
    subStateC2.subscription.last_received_seq = 5 ∧
    ((subHandleRequest (.publish ⟨"t", 3⟩) 1 subStateC2).1).subscription.last_received_seq = 3 ∧
    (3 : Nat) < 5 := by
  decide

/-- C2 amended: on a Publish relay whose topic matches the subscription,
the engine sets `last_received_seq` to the incoming sequence directly (not
to the max with the current value, so it can decrease), and forwards the
message unchanged to the parent and to every address in `forward_to`. -/
theorem C2_assigns_incoming_sequence (state : SubscriberState) (source : Address)
    (pubMsg : PublishRequest) (ht : state.subscription.topic = pubMsg.topic) :
    subHandleRequest (.publish pubMsg) source state =
      ({ state with subscription :=
          { state.subscription with last_received_seq := pubMsg.sequence } },
       SubEvent.send state.subscription.parent (.publish pubMsg) ::
         state.subscription.forward_to.map (fun f => SubEvent.send f (.publish pubMsg)),
       false) := by
  simp only [subHandleRequest]
  rw [if_pos ht]

/-- Witness for the amended C2 at a concrete subscriber and message. -/
theorem C2_witness :
    subStateC2.subscription.topic = "t" ∧
    subHandleRequest (.publish ⟨"t", 7⟩) 9 subStateC2 =
      (⟨⟨1, "t", 7, 0, []⟩⟩,
       [SubEvent.send 0 (.publish ⟨"t", 7⟩)],
       false) :=
  ⟨rfl, C2_assigns_incoming_sequence subStateC2 9 ⟨"t", 7⟩ rfl⟩

/-- A Disk-tier history whose only entry's payload fetch fails (fault
injected on `get` for key 1, the record itself present). -/
def kvC3 : KvStore := ⟨[(1, [7])], [1], [], []⟩

/-- History with one pointer entry over `kvC3`. -/
def histC3 : MessageHistory := ⟨[.sequenceOnly 1], .disk 2, kvC3⟩

/-- C3 is false as stated: the payload fetch for the retained entry
(sequence 1 ≥ start 1) fails, yet `get_messages_from` returns `Ok([])` —
the entry is silently skipped instead of the error propagating and
aborting the read. -/
theorem C3_counterexample :
    histC3.kv.getFail = [1] ∧
    histC3.entries = [.sequenceOnly 1] ∧
    histC3.get_messages_from 1 = .ok [] :=
  ⟨rfl, rfl, rfl⟩

theorem diskReadFrom_skip_fault (kv : KvStore) (start s : Nat) (hs : s ∈ kv.getFail) :
    ∀ l1 l2 : List StorageEntry,
      diskReadFrom kv start (l1 ++ .sequenceOnly s :: l2) =
        diskReadFrom kv start (l1 ++ l2) := by
  intro l1
  induction l1 with
  | nil =>
      intro l2
      have hget : kvGet kv s = .error () := by simp [kvGet, hs]
      simp only [List.nil_append, diskReadFrom, hget]
      split <;> rfl
  | cons e rest ih =>
      intro l2
      cases e with
      | full m => simp only [List.cons_append, diskReadFrom, List.append_eq, ih]
      | sequenceOnly t => simp only [List.cons_append, diskReadFrom, List.append_eq, ih]

/-- C3 amended: in `add_message` on the Disk tier a durable-store error
(on the eviction `delete` or on the `set`) propagates and aborts the add,
as the claim states; but in `get_messages_from` a failed payload fetch is
silently skipped — the read behaves exactly as if the failing entry were
not retained — rather than aborting (only deserialization errors abort the
read). -/
theorem C3_fault_handling :
    (∀ (kv : KvStore) (start s n : Nat) (l1 l2 : List StorageEntry),
       s ∈ kv.getFail →
       MessageHistory.get_messages_from ⟨l1 ++ .sequenceOnly s :: l2, .disk n, kv⟩ start =
         MessageHistory.get_messages_from ⟨l1 ++ l2, .disk n, kv⟩ start) ∧
    (∀ (h : MessageHistory) (n seq : Nat) (content : Bytes),
       h.persistence = .disk n → h.entries.length < n → seq ∈ h.kv.setFail →
       (h.add_message seq content).2 = false) ∧
    (∀ (h : MessageHistory) (n seq s : Nat) (content : Bytes) (rest : List StorageEntry),
       h.persistence = .disk n → h.entries = .sequenceOnly s :: rest →
       n ≤ h.entries.length → s ∈ h.kv.deleteFail →
       (h.add_message seq content).2 = false) := by
  refine ⟨?_, ?_, ?_⟩
  · intro kv start s n l1 l2 hs
    simp only [MessageHistory.get_messages_from]
    exact diskReadFrom_skip_fault kv start s hs l1 l2
  · intro h n seq content hp hlen hset
    obtain ⟨entries, p, kv⟩ := h
    simp only at hp hlen hset
    subst hp
    have hkv : kvSet kv seq content = .error () := by simp [kvSet, hset]
    simp only [MessageHistory.add_message, if_neg (not_le.mpr hlen), hkv]
    simp
  · intro h n seq s content rest hp he hcap hdel
    obtain ⟨entries, p, kv⟩ := h
    simp only at hp he hcap hdel
    subst hp
    subst he
    have hkv : kvDelete kv s = .error () := by simp [kvDelete, hdel]
    simp only [MessageHistory.add_message, if_pos hcap, hkv]
    simp

/-- A kv handle faulting on `set` of key 5. -/
def kvSetFaultEx : KvStore := ⟨[], [], [5], []⟩

/-- A kv handle faulting on `delete` of key 3. -/
def kvDelFaultEx : KvStore := ⟨[], [], [], [3]⟩

/-- Witness for C3 at concrete stores: the faulting fetch is skipped (the
read equals the read without the entry), and faulting `set`/`delete`
calls make `add_message` fail. -/
theorem C3_witness :
    (MessageHistory.get_messages_from ⟨[.sequenceOnly 1], .disk 2, kvC3⟩ 1 =
       MessageHistory.get_messages_from ⟨[], .disk 2, kvC3⟩ 1) ∧
    (MessageHistory.add_message ⟨[], .disk 2, kvSetFaultEx⟩ 5 [1]).2 = false ∧
    (MessageHistory.add_message ⟨[.sequenceOnly 3], .disk 1, kvDelFaultEx⟩ 5 [1]).2 = false :=
  ⟨C3_fault_handling.1 kvC3 1 1 2 [] [] (by decide),
   C3_fault_handling.2.1 ⟨[], .disk 2, kvSetFaultEx⟩ 2 5 [1] rfl (by decide) (by decide),
   C3_fault_handling.2.2 ⟨[.sequenceOnly 3], .disk 1, kvDelFaultEx⟩ 1 5 3 [1] [] rfl rfl
     (by decide) (by decide)⟩

/-- Applies a batch of `(sequence, payload)` adds to a history in order;
as in the Rust process, a failed add leaves its partial mutation in place
and later operations continue from it. -/
def runAdds (h : MessageHistory) : List (Nat × Bytes) → MessageHistory
  | [] => h
  | (s, c) :: rest => runAdds (h.add_message s c).1 rest

/-- A Memory-tier history configured with `max_length = 0`. -/
def memZeroHist : MessageHistory := ⟨[], .memory 0, cleanKv⟩

/-- C4 is false as stated when the configured `max_length` is 0: the
eviction pops the (empty) front and then appends, so one entry is
retained, exceeding the configured bound 0. -/
theorem C4_counterexample :
    memZeroHist.persistence = .memory 0 ∧
    ((memZeroHist.add_message 1 []).1).entries.length = 1 :=
  ⟨rfl, rfl⟩

theorem add_message_persistence (h : MessageHistory) (seq : Nat) (content : Bytes) :
    ((h.add_message seq content).1).persistence = h.persistence := by
  obtain ⟨entries, p, kv⟩ := h
  cases p with
  | none => rfl
  | memory n => rfl
  | disk n =>
      simp only [MessageHistory.add_message]
      repeat' split
      all_goals rfl

theorem add_message_length_le (h : MessageHistory) (n seq : Nat) (content : Bytes)
    (hp : h.persistence = .memory n ∨ h.persistence = .disk n) (hn : 1 ≤ n)
    (hl : h.entries.length ≤ n) :
    ((h.add_message seq content).1).entries.length ≤ n := by
  obtain ⟨entries, p, kv⟩ := h
  simp only at hp hl
  rcases hp with hp | hp <;> subst hp <;> simp only [MessageHistory.add_message]
  · by_cases hcap : n ≤ entries.length
    · rw [if_pos hcap]
      have hne : entries ≠ [] := by
        intro hnil
        rw [hnil] at hcap
        simp at hcap
        omega
      have : entries.tail.length = entries.length - 1 := List.length_tail entries
      simp only [List.length_append, List.length_singleton, this]
      omega
    · rw [if_neg hcap]
      simp only [List.length_append, List.length_singleton]
      omega
  · repeat' split
    all_goals simp_all [List.length_append, List.length_tail]
    all_goals omega

/-- C4 amended: for a configured `max_length` `n ≥ 1` (both Memory and
Disk tiers), any batch of adds starting within the bound stays within the
bound — the history never exceeds `n` entries — and at capacity the
oldest (front) entry is evicted FIFO before the new entry is appended.
(For `n = 0` the claim fails: one entry is retained, see the
counterexample.) -/
theorem C4_bounded_capacity :
    (∀ (n : Nat) (h0 : MessageHistory) (adds : List (Nat × Bytes)),
       1 ≤ n → (h0.persistence = .memory n ∨ h0.persistence = .disk n) →
       h0.entries.length ≤ n → (runAdds h0 adds).entries.length ≤ n) ∧
    (∀ (n : Nat) (h : MessageHistory) (seq : Nat) (content : Bytes),
       h.persistence = .memory n → n ≤ h.entries.length →
       ((h.add_message seq content).1).entries = h.entries.tail ++ [.full ⟨seq, content⟩]) ∧
    (∀ (n : Nat) (h : MessageHistory) (seq oldest : Nat) (content : Bytes)
       (rest : List StorageEntry),
       h.persistence = .disk n → h.entries = .sequenceOnly oldest :: rest →
       n ≤ h.entries.length → oldest ∉ h.kv.deleteFail → seq ∉ h.kv.setFail →
       ((h.add_message seq content).1).entries = rest ++ [.sequenceOnly seq]) := by
  refine ⟨?_, ?_, ?_⟩
  · intro n h0 adds
    induction adds generalizing h0 with
    | nil => intro _ _ hl; exact hl
    | cons a rest ih =>
        intro hn hp hl
        obtain ⟨s, c⟩ := a
        have hp2 : ((h0.add_message s c).1).persistence = .memory n ∨
            ((h0.add_message s c).1).persistence = .disk n := by
          rw [add_message_persistence]
          exact hp
        simp only [runAdds]
        exact ih _ hn hp2 (add_message_length_le h0 n s c hp hn hl)
  · intro n h seq content hp hcap
    obtain ⟨entries, p, kv⟩ := h
    simp only at hp hcap
    subst hp
    simp only [MessageHistory.add_message, if_pos hcap]
  · intro n h seq oldest content rest hp he hcap hdel hset
    obtain ⟨entries, p, kv⟩ := h
    simp only at hp he hcap hdel hset
    subst hp
    subst he
    simp only [MessageHistory.add_message, if_pos hcap, kvDelete, kvSet,
      if_neg hdel, if_neg hset]
    simp

/-- Witness for the amended C4: three adds into Memory(2) stay within 2
entries; at capacity the Memory tier drops the front and appends; at
capacity the Disk tier replaces the oldest pointer with the new one. -/
theorem C4_witness :
    (runAdds ⟨[], .memory 2, cleanKv⟩ [(1, [1]), (2, [2]), (3, [3])]).entries.length ≤ 2 ∧
    ((MessageHistory.add_message ⟨[.full ⟨1, [1]⟩, .full ⟨2, [2]⟩], .memory 2, cleanKv⟩
        3 [3]).1).entries = [.full ⟨2, [2]⟩, .full ⟨3, [3]⟩] ∧
    ((MessageHistory.add_message ⟨[.sequenceOnly 1], .disk 1, cleanKv⟩ 2 [9]).1).entries =
      [.sequenceOnly 2] :=
  ⟨C4_bounded_capacity.1 2 ⟨[], .memory 2, cleanKv⟩ [(1, [1]), (2, [2]), (3, [3])]
     (by decide) (Or.inl rfl) (by decide),
   by
     rw [C4_bounded_capacity.2.1 2 ⟨[.full ⟨1, [1]⟩, .full ⟨2, [2]⟩], .memory 2, cleanKv⟩
        3 [3] rfl (by decide)]
     rfl,
   by
     rw [C4_bounded_capacity.2.2 1 ⟨[.sequenceOnly 1], .disk 1, cleanKv⟩ 2 1 [9] []
        rfl rfl (by decide) (by decide) (by decide)]
     rfl⟩

/-- A fresh Disk(2) history over a clean store. -/
def diskHist2 : MessageHistory := ⟨[], .disk 2, cleanKv⟩

/-- A fresh Memory(2) history. -/
def memHist2 : MessageHistory := ⟨[], .memory 2, cleanKv⟩

/-- C5 / Disk read-back bug, evaluated at the failing input: adding
payload `[104, 105]` (the bytes of `"hi"`, not a serialized `Message`)
under sequence 1 succeeds, but `readFrom(1)` then aborts with an error
instead of returning the retained entry: the Disk branch of `add_message`
stores only the raw payload bytes, while `get_messages_from` re-parses
those bytes as a whole `Message` (`serde_json::from_slice::<Message>`),
which cannot round-trip.  The Memory tier on the same input returns the
entry exactly as the claim states. -/
theorem C5_disk_readback_error :
    (diskHist2.add_message 1 [104, 105]).2 = true ∧
    ((diskHist2.add_message 1 [104, 105]).1).get_messages_from 1 = .error () ∧
    (memHist2.add_message 1 [104, 105]).2 = true ∧
    ((memHist2.add_message 1 [104, 105]).1).get_messages_from 1 = .ok [⟨1, [104, 105]⟩] :=
  ⟨rfl, rfl, rfl, rfl⟩

theorem lookupKey_eq_none (k : Nat) :
    ∀ l : List (Nat × Bytes), (∀ p ∈ l, p.1 ≠ k) → lookupKey k l = Option.none := by
  intro l
  induction l with
  | nil => intro _; rfl
  | cons p rest ih =>
      intro hall
      obtain ⟨k2, v⟩ := p
      simp only [lookupKey]
      rw [if_neg (hall (k2, v) (List.mem_cons_self (k2, v) rest))]
      exact ih fun q hq => hall q (List.mem_cons_of_mem (k2, v) hq)

/-- C6: a Disk-tier add at capacity evicts the oldest entry by removing
both the in-memory sequence pointer and the durable record, stores the new
payload under the new sequence, and succeeds.  The theorem places no
requirement on `h.kv.data`, so it covers in particular the case where the
oldest record is already absent from the durable store: the delete is
tolerated and the add still succeeds (the external store's delete is
modelled per the spec's interface description as a no-op on absent
keys). -/
theorem C6_disk_eviction (h : MessageHistory) (n oldest seq : Nat) (content : Bytes)
    (rest : List StorageEntry)
    (hp : h.persistence = .disk n)
    (he : h.entries = .sequenceOnly oldest :: rest)
    (hcap : n ≤ h.entries.length)
    (hdel : oldest ∉ h.kv.deleteFail)
    (hset : seq ∉ h.kv.setFail)
    (hne : oldest ≠ seq) :
    (h.add_message seq content).2 = true ∧
    ((h.add_message seq content).1).entries = rest ++ [.sequenceOnly seq] ∧
    lookupKey oldest ((h.add_message seq content).1).kv.data = Option.none ∧
    lookupKey seq ((h.add_message seq content).1).kv.data = some content := by
  obtain ⟨entries, p, kv⟩ := h
  simp only at hp he hcap hdel hset
  subst hp
  subst he
  have hres : MessageHistory.add_message
      ⟨.sequenceOnly oldest :: rest, .disk n, kv⟩ seq content =
      (⟨rest ++ [.sequenceOnly seq], .disk n,
        ⟨(seq, content) ::
           (kv.data.filter (fun q => q.1 != oldest)).filter (fun q => q.1 != seq),
         kv.getFail, kv.setFail, kv.deleteFail⟩⟩, true) := by
    simp only [MessageHistory.add_message, if_pos hcap, kvDelete, kvSet,
      if_neg hdel, if_neg hset]
    simp
  rw [hres]
  refine ⟨rfl, rfl, ?_, ?_⟩
  · simp only [lookupKey]
    rw [if_neg (fun hEq : seq = oldest => hne hEq.symm)]
    apply lookupKey_eq_none
    intro q hq
    have hq1 : q ∈ kv.data.filter (fun q => q.1 != oldest) := List.mem_of_mem_filter hq
    have hq2 := List.of_mem_filter hq1
    simpa using hq2
  · simp only [lookupKey]
    simp

/-- A Disk(1) history at capacity whose oldest record is already absent
from the durable store. -/
def evictHist : MessageHistory := ⟨[.sequenceOnly 1], .disk 1, cleanKv⟩

/-- Witness for C6: evicting pointer 1, whose durable record is absent,
is tolerated; the add succeeds, pointer and record for the old sequence
are gone, and the new payload is stored. -/
theorem C6_witness :
    (evictHist.add_message 2 [9]).2 = true ∧
    ((evictHist.add_message 2 [9]).1).entries = [.sequenceOnly 2] ∧
    lookupKey 1 ((evictHist.add_message 2 [9]).1).kv.data = Option.none ∧
    lookupKey 2 ((evictHist.add_message 2 [9]).1).kv.data = some [9] :=
  C6_disk_eviction evictHist 1 1 2 [9] [] rfl rfl (by decide) (by decide) (by decide)
    (by decide)

theorem filterMap_retained (start : Nat) :
    ∀ l : List StorageEntry,
      (l.filterMap fun e =>
        match e with
        | .full msg => if start ≤ msg.sequence then some msg else Option.none
        | .sequenceOnly _ => Option.none) =
      ((l.filterMap fun e =>
        match e with
        | .full m => some m
        | .sequenceOnly _ => Option.none).filter fun m => decide (start ≤ m.sequence)) := by
  intro l
  induction l with
  | nil => rfl
  | cons e rest ih =>
      cases e with
      | full m =>
          by_cases hs : start ≤ m.sequence
          · simp [List.filterMap_cons, hs, ih]
          · simp [List.filterMap_cons, hs, ih]
      | sequenceOnly t => simpa [List.filterMap_cons] using ih

theorem memory_get_messages (h : MessageHistory) (n start : Nat)
    (hp : h.persistence = .memory n) :
    h.get_messages_from start =
      .ok ((retainedMessages h).filter fun m => decide (start ≤ m.sequence)) := by
  obtain ⟨entries, p, kv⟩ := h
  simp only at hp
  subst hp
  simp only [MessageHistory.get_messages_from, retainedMessages]
  rw [filterMap_retained]

/-- C9 amended (holds for the Memory tier; the Disk tier diverges, see the
counterexample): a successful Subscribe on the served topic carrying
`from_sequence = fs` registers the source in the subscriber set and, after
the response, replays exactly the retained messages with sequence ≥ fs as
individual Publish sends to the new subscriber, each carrying that
message's sequence and payload, in history order — which is ascending
whenever the retained sequences are ascending. -/
theorem C9_memory_replay (state : PublisherState) (source : Address) (blob : Option Bytes)
    (n fs : Nat) (hp : state.message_history.persistence = .memory n) :
    pubHandleRequest (.subscribe ⟨state.topic, some fs⟩) source blob state =
      ({ state with subscribers := insertAddr source state.subscribers },
       PubEvent.response ⟨true, state.topic, Option.none⟩ ::
         ((retainedMessages state.message_history).filter
             fun m => decide (fs ≤ m.sequence)).map
           (fun m => PubEvent.send source ⟨state.topic, m.sequence⟩ m.content),
       true) ∧
    (List.Pairwise (fun a b => a.sequence < b.sequence)
        (retainedMessages state.message_history) →
      List.Pairwise (· < ·)
        (((retainedMessages state.message_history).filter
            fun m => decide (fs ≤ m.sequence)).map fun m => m.sequence)) := by
  constructor
  · simp only [pubHandleRequest, if_pos rfl]
    rw [memory_get_messages
      ({ state with subscribers := insertAddr source state.subscribers
        } : PublisherState).message_history n fs hp]
    simp
  · intro hpw
    have h1 : List.Pairwise (fun a b => a.sequence < b.sequence)
        ((retainedMessages state.message_history).filter
          fun m => decide (fs ≤ m.sequence)) :=
      List.Pairwise.sublist (List.filter_sublist _) hpw
    exact List.pairwise_map.mpr h1

/-- Disk store holding the payload `[5]` (not a message encoding) for the
retained sequence 1. -/
def kvC9 : KvStore := ⟨[(1, [5])], [], [], []⟩

/-- A Disk-tier publisher for topic `"t"` retaining exactly sequence 1. -/
def pubStateC9 : PublisherState :=
  { topic := "t", last_sequence := 1, subscribers := [], offline_subscribers := [],
    config := witnessConfig, parent := 0,
    message_history := ⟨[.sequenceOnly 1], .disk 2, kvC9⟩ }

/-- C9 is false as stated: this publisher retains an entry with
sequence 1 ≥ from_sequence 1, yet the successful Subscribe emits only the
response and zero replay Publish sends (the Disk read aborts on the
payload decode), so not every retained entry is replayed. -/
theorem C9_counterexample :
    pubStateC9.message_history.entries = [.sequenceOnly 1] ∧
    (pubHandleRequest (.subscribe ⟨"t", some 1⟩) 3 Option.none pubStateC9).2.1 =
      [PubEvent.response ⟨true, "t", Option.none⟩] := by
  decide

/-- A Memory-tier publisher retaining sequences 1, 2, 3. -/
def pubStateC9w : PublisherState :=
  { topic := "t", last_sequence := 3, subscribers := [], offline_subscribers := [],
    config := witnessConfig, parent := 0,
    message_history :=
      ⟨[.full ⟨1, [10]⟩, .full ⟨2, [20]⟩, .full ⟨3, [30]⟩], .memory 1000, cleanKv⟩ }

/-- Witness for the amended C9: subscribing with `from_sequence = 2`
replays exactly sequences 2 and 3, in order, with their payloads. -/
theorem C9_witness :
    pubHandleRequest (.subscribe ⟨pubStateC9w.topic, some 2⟩) 5 Option.none pubStateC9w =
      ({ pubStateC9w with subscribers := insertAddr 5 pubStateC9w.subscribers },
       PubEvent.response ⟨true, pubStateC9w.topic, Option.none⟩ ::
         ((retainedMessages pubStateC9w.message_history).filter
             fun m => decide (2 ≤ m.sequence)).map
           (fun m => PubEvent.send 5 ⟨pubStateC9w.topic, m.sequence⟩ m.content),
       true) ∧
    ((retainedMessages pubStateC9w.message_history).filter
        fun m => decide (2 ≤ m.sequence)).map
      (fun m => PubEvent.send 5 ⟨pubStateC9w.topic, m.sequence⟩ m.content) =
      [PubEvent.send 5 ⟨"t", 2⟩ [20], PubEvent.send 5 ⟨"t", 3⟩ [30]] :=
  ⟨(C9_memory_replay pubStateC9w 5 Option.none 1000 2 rfl).1, by decide⟩

end PubSub
